import Mathlib

/-!
Verification development for the sandboxed.sh smoke-test harness
(`scripts/mission_stream_smoke.py`, `scripts/mission_browser_smoke.py`,
`scripts/proxy_smoke.py`).

The development shallowly embeds the pure core of the scripts:
the incremental SSE frame parser (`parse_sse` loop body), the
per-script `StreamStats` aggregators and their event-routing handlers,
the three completion policies, and an abstract-time model of the
stream watcher's reconnect loop.  Python strings are Lean `String`s
(`List Char` backed); Python `json.loads` is modelled by a small JSON
reader adequate for the payload grammar the scripts exercise; Python
`set` objects are modelled as duplicate-free lists with value equality.
-/

/-! ## Python string helpers -/

/-- Characters stripped by Python's `str.strip()` with no argument. -/
def isSpaceChar (c : Char) : Bool :=
  c == ' ' || c == '\t' || c == '\n' || c == '\r' || c == '\x0b' || c == '\x0c'

/-- Model of Python `s.strip()`: remove leading and trailing whitespace. -/
def pyStrip (s : String) : String :=
  String.mk (((s.data.dropWhile isSpaceChar).reverse.dropWhile isSpaceChar).reverse)

/-- Model of Python `s.startswith(p)` for a single string argument. -/
def pyStartswith (s p : String) : Bool :=
  p.data.isPrefixOf s.data

/-- Model of Python `s[n:]` (drop the first `n` characters). -/
def pyDrop (s : String) (n : Nat) : String :=
  String.mk (s.data.drop n)

/-- Model of Python `s[:n]` (keep the first `n` characters). -/
def pyTake (s : String) (n : Nat) : String :=
  String.mk (s.data.take n)

/-- Model of Python `"\n".join(ls)`. -/
def joinNL (ls : List String) : String :=
  String.intercalate "\n" ls

/-! ## JSON value model

Model of the values produced by Python's `json.loads`.  Arrays and
objects are represented by the mutually inductive `JsonList` and
`JsonFields` so that every operation is structurally recursive and
kernel-computable. -/

mutual

inductive Json where
  | null
  | bool (b : Bool)
  | num (n : Int)
  | str (s : String)
  | arr (elems : JsonList)
  | obj (fields : JsonFields)

inductive JsonList where
  | nil
  | cons (head : Json) (tail : JsonList)

inductive JsonFields where
  | nil
  | cons (key : String) (val : Json) (tail : JsonFields)

end

mutual

/-- Structural value equality, modelling Python `==` on decoded JSON values. -/
def Json.eqb : Json → Json → Bool
  | Json.null, Json.null => true
  | Json.bool a, Json.bool b => a == b
  | Json.num a, Json.num b => a == b
  | Json.str a, Json.str b => a == b
  | Json.arr xs, Json.arr ys => JsonList.eqb xs ys
  | Json.obj xs, Json.obj ys => JsonFields.eqb xs ys
  | _, _ => false

/-- Elementwise equality of JSON arrays. -/
def JsonList.eqb : JsonList → JsonList → Bool
  | JsonList.nil, JsonList.nil => true
  | JsonList.cons x xs, JsonList.cons y ys => Json.eqb x y && JsonList.eqb xs ys
  | _, _ => false

/-- Fieldwise equality of JSON objects (in field order). -/
def JsonFields.eqb : JsonFields → JsonFields → Bool
  | JsonFields.nil, JsonFields.nil => true
  | JsonFields.cons k v xs, JsonFields.cons k2 v2 ys =>
      k == k2 && Json.eqb v v2 && JsonFields.eqb xs ys
  | _, _ => false

end

/-- Lookup of a key in an object's field list; the last binding wins,
matching the behaviour of Python dicts built by `json.loads` when a key
repeats. -/
def JsonFields.lookupLast : JsonFields → String → Option Json
  | JsonFields.nil, _ => none
  | JsonFields.cons k v rest, key =>
      match JsonFields.lookupLast rest key with
      | some r => some r
      | none => if k == key then some v else none

/-- Model of Python `payload.get(key)`: `none` both when the key is
absent and when the receiver is not an object. -/
def Json.get : Json → String → Option Json
  | Json.obj fs, key => JsonFields.lookupLast fs key
  | _, _ => none

/-- Model of Python `key in payload` for object payloads. -/
def Json.hasKey (j : Json) (key : String) : Bool :=
  (Json.get j key).isSome

/-- Model of Python truthiness of a decoded JSON value (`None`, `False`,
`0`, `""`, `[]` and `{}` are falsy, everything else truthy). -/
def Json.truthy : Json → Bool
  | Json.null => false
  | Json.bool b => b
  | Json.num n => n != 0
  | Json.str s => s != ""
  | Json.arr JsonList.nil => false
  | Json.arr _ => true
  | Json.obj JsonFields.nil => false
  | Json.obj _ => true

mutual

/-- Approximate model of Python `str()` on a decoded JSON value, used
only to form the proxy script's `API error:` log message. -/
def Json.render : Json → String
  | Json.null => "None"
  | Json.bool true => "True"
  | Json.bool false => "False"
  | Json.num n => toString n
  | Json.str s => s
  | Json.arr xs => "[" ++ JsonList.render xs ++ "]"
  | Json.obj kvs => "\x7b" ++ JsonFields.render kvs ++ "\x7d"

/-- Comma-separated rendering of array elements. -/
def JsonList.render : JsonList → String
  | JsonList.nil => ""
  | JsonList.cons x JsonList.nil => Json.render x
  | JsonList.cons x (JsonList.cons y ys) =>
      Json.render x ++ ", " ++ JsonList.render (JsonList.cons y ys)

/-- Comma-separated rendering of object fields. -/
def JsonFields.render : JsonFields → String
  | JsonFields.nil => ""
  | JsonFields.cons k v JsonFields.nil => k ++ ": " ++ Json.render v
  | JsonFields.cons k v (JsonFields.cons k2 v2 ys) =>
      k ++ ": " ++ Json.render v ++ ", " ++ JsonFields.render (JsonFields.cons k2 v2 ys)

end

/-! ## JSON reader

Model of Python's `json.loads`, covering the payload grammar the smoke
scripts exercise: objects, arrays, strings (with the common escapes),
integers, booleans and null.  The reader is strict: trailing garbage or
malformed input yields `none`, modelling `json.JSONDecodeError`. -/

/-- JSON insignificant whitespace. -/
def jsonWsChar (c : Char) : Bool :=
  c == ' ' || c == '\t' || c == '\n' || c == '\r'

/-- Skip JSON insignificant whitespace. -/
def skipWs (cs : List Char) : List Char :=
  cs.dropWhile jsonWsChar

/-- Read the body of a string literal after the opening quote, returning
the decoded text and the input past the closing quote. -/
def parseStringLit : List Char → Option (String × List Char)
  | [] => none
  | '"' :: rest => some ("", rest)
  | '\\' :: c :: rest =>
      (match (if c == '"' then some '"'
              else if c == '\\' then some '\\'
              else if c == '/' then some '/'
              else if c == 'n' then some '\n'
              else if c == 't' then some '\t'
              else if c == 'r' then some '\r'
              else none) with
       | none => none
       | some e =>
         match parseStringLit rest with
         | some (s, r) => some (String.mk (e :: s.data), r)
         | none => none)
  | c :: rest =>
      match parseStringLit rest with
      | some (s, r) => some (String.mk (c :: s.data), r)
      | none => none

/-- Decimal digits to a natural number. -/
def digitsToNat (ds : List Char) : Nat :=
  ds.foldl (fun a c => a * 10 + (c.toNat - 48)) 0

mutual

/-- Read one JSON value; `fuel` bounds recursion depth and is ample at
one unit per input character. -/
def parseValue : Nat → List Char → Option (Json × List Char)
  | 0, _ => none
  | Nat.succ fuel, cs0 =>
    match skipWs cs0 with
    | [] => none
    | '"' :: rest =>
        (match parseStringLit rest with
         | some (s, r) => some (Json.str s, r)
         | none => none)
    | '\x7b' :: rest =>
        (match skipWs rest with
         | '\x7d' :: r => some (Json.obj JsonFields.nil, r)
         | cs1 => match parseMembers fuel cs1 with
           | some (fs, r) => some (Json.obj fs, r)
           | none => none)
    | '[' :: rest =>
        (match skipWs rest with
         | ']' :: r => some (Json.arr JsonList.nil, r)
         | cs1 => match parseElems fuel cs1 with
           | some (xs, r) => some (Json.arr xs, r)
           | none => none)
    | c :: rest =>
        if c == 't' then
          (if ['r', 'u', 'e'].isPrefixOf rest then some (Json.bool true, rest.drop 3) else none)
        else if c == 'f' then
          (if ['a', 'l', 's', 'e'].isPrefixOf rest then some (Json.bool false, rest.drop 4) else none)
        else if c == 'n' then
          (if ['u', 'l', 'l'].isPrefixOf rest then some (Json.null, rest.drop 3) else none)
        else if c == '-' then
          (match rest.span Char.isDigit with
           | (ds, r) => if ds.isEmpty then none else some (Json.num (-(Int.ofNat (digitsToNat ds))), r))
        else if c.isDigit then
          (match (c :: rest).span Char.isDigit with
           | (ds, r) => some (Json.num (Int.ofNat (digitsToNat ds)), r))
        else none

/-- Read one or more `"key": value` members and the closing brace. -/
def parseMembers : Nat → List Char → Option (JsonFields × List Char)
  | 0, _ => none
  | Nat.succ fuel, cs =>
    match cs with
    | '"' :: rest =>
      (match parseStringLit rest with
       | none => none
       | some (k, r1) =>
         match skipWs r1 with
         | ':' :: r2 =>
           (match parseValue fuel r2 with
            | none => none
            | some (v, r3) =>
              match skipWs r3 with
              | ',' :: r4 =>
                (match parseMembers fuel (skipWs r4) with
                 | some (fs, r) => some (JsonFields.cons k v fs, r)
                 | none => none)
              | '\x7d' :: r4 => some (JsonFields.cons k v JsonFields.nil, r4)
              | _ => none)
         | _ => none)
    | _ => none

/-- Read one or more array elements and the closing bracket. -/
def parseElems : Nat → List Char → Option (JsonList × List Char)
  | 0, _ => none
  | Nat.succ fuel, cs =>
    match parseValue fuel cs with
    | none => none
    | some (v, r1) =>
      match skipWs r1 with
      | ',' :: r2 =>
        (match parseElems fuel (skipWs r2) with
         | some (xs, r) => some (JsonList.cons v xs, r)
         | none => none)
      | ']' :: r2 => some (JsonList.cons v JsonList.nil, r2)
      | _ => none

end

/-- Model of Python `json.loads`: decode one JSON document, rejecting
trailing non-whitespace; `none` models `json.JSONDecodeError`. -/
def jsonLoads (s : String) : Option Json :=
  match parseValue (s.data.length + 1) s.data with
  | some (v, rest) => if (skipWs rest).isEmpty then some v else none
  | none => none

/-! ## Python set model

The scripts' `Set[str]` fields receive whatever value appears in the
payload, so the sets are modelled as duplicate-free lists of JSON
values with structural value equality. -/

/-- Model of Python `set.add`. -/
def pySetAdd (s : List Json) (v : Json) : List Json :=
  if s.any (fun x => Json.eqb x v) then s else s ++ [v]

/-- Model of Python `a & b` (set intersection). -/
def pySetInter (a b : List Json) : List Json :=
  a.filter (fun x => b.any (fun y => Json.eqb x y))

/-- Model of Python `set.add` on a set of plain strings. -/
def pyStrSetAdd (s : List String) (v : String) : List String :=
  if s.contains v then s else s ++ [v]

/-! ## SSE frame parser

Embedding of the loop body of `parse_sse` (identical in
`mission_stream_smoke.py` and `mission_browser_smoke.py`, and in
`parse_sse_events` of `proxy_smoke.py`): a pure state machine consuming
one already-decoded line at a time and emitting `(event_type, data)`
pairs in order. -/

/-- The two pieces of parser state: the pending `event:` label and the
accumulated `data:` lines. -/
structure ParserState where
  event_type : Option String := none
  data_lines : List String := []
deriving DecidableEq

/-- Python truthiness of the `event_type` variable (`None` and the empty
string are falsy). -/
def labelTruthy : Option String → Bool
  | none => false
  | some s => s != ""

/-- One iteration of the `parse_sse` loop body on one decoded line:
comment lines are skipped; an empty line emits the pending event (when
both a truthy label and at least one data line are pending) and resets
both state fields; `event:` lines set the label; `data:` lines append;
anything else is ignored. -/
def parseLine (st : ParserState) (line : String) : ParserState × List (String × String) :=
  if pyStartswith line ":" then (st, [])
  else if line == "" then
    (⟨none, []⟩,
      if labelTruthy st.event_type && !st.data_lines.isEmpty
      then [(st.event_type.getD "", joinNL st.data_lines)]
      else [])
  else if pyStartswith line "event:" then
    ({ st with event_type := some (pyStrip (pyDrop line 6)) }, [])
  else if pyStartswith line "data:" then
    ({ st with data_lines := st.data_lines ++ [pyStrip (pyDrop line 5)] }, [])
  else (st, [])

/-- Run the parser over a list of lines, collecting emitted events in
order, exactly as `parse_sse` invokes its `on_event` callback. -/
def processLines : ParserState → List String → ParserState × List (String × String)
  | st, [] => (st, [])
  | st, l :: rest =>
      let step := parseLine st l
      let next := processLines step.1 rest
      (next.1, step.2 ++ next.2)

namespace MissionStream

/-- `StreamStats` of `mission_stream_smoke.py`. -/
structure StreamStats where
  thinking_chunks : Nat := 0
  text_deltas : Nat := 0
  assistant_messages : Nat := 0
  tool_calls : Nat := 0
  tool_results : Nat := 0
  assistant_models : List String := []
  tool_call_ids : List Json := []
  tool_result_ids : List Json := []
  errors : List String := []

/-- `StreamStats.has_required_events`: the streaming-shape completion
policy. -/
def StreamStats.has_required_events (s : StreamStats) (require_thinking : Bool) : Bool :=
  if s.assistant_messages < 2 then false
  else if s.text_deltas < 1 then false
  else if require_thinking && decide (s.thinking_chunks < 1) then false
  else if s.tool_calls < 1 ∨ s.tool_results < 1 then false
  else if (pySetInter s.tool_call_ids s.tool_result_ids).isEmpty then false
  else true

/-- The routing switch of `StreamWatcher.on_event` after a successful
JSON decode: drop events whose truthy `mission_id` differs from the
watcher's mission, otherwise dispatch on the event type. -/
def onEventDecoded (missionId : String) (event_type : String) (payload : Json)
    (s : StreamStats) : StreamStats :=
  let mid := (payload.get "mission_id").getD Json.null
  if mid.truthy && !(Json.eqb mid (Json.str missionId)) then s
  else if event_type == "thinking" then
    (if ((payload.get "content").getD Json.null).truthy
     then { s with thinking_chunks := s.thinking_chunks + 1 } else s)
  else if event_type == "text_delta" then
    (if ((payload.get "content").getD Json.null).truthy
     then { s with text_deltas := s.text_deltas + 1 } else s)
  else if event_type == "assistant_message" then
    (let s1 := { s with assistant_messages := s.assistant_messages + 1 }
     match payload.get "model" with
     | some (Json.str m) =>
         if pyStrip m != ""
         then { s1 with assistant_models := pyStrSetAdd s1.assistant_models (pyStrip m) }
         else s1
     | _ => s1)
  else if event_type == "tool_call" then
    (let s1 := { s with tool_calls := s.tool_calls + 1 }
     let tid := (payload.get "tool_call_id").getD Json.null
     if tid.truthy then { s1 with tool_call_ids := pySetAdd s1.tool_call_ids tid } else s1)
  else if event_type == "tool_result" then
    (let s1 := { s with tool_results := s.tool_results + 1 }
     let tid := (payload.get "tool_call_id").getD Json.null
     if tid.truthy then { s1 with tool_result_ids := pySetAdd s1.tool_result_ids tid } else s1)
  else s

/-- `StreamWatcher.on_event`: decode the raw payload; on
`json.JSONDecodeError` return with no mutation at all, otherwise route
the decoded payload. -/
def on_event (missionId event_type raw_data : String) (s : StreamStats) : StreamStats :=
  match jsonLoads raw_data with
  | none => s
  | some payload => onEventDecoded missionId event_type payload s

/-- Feed raw SSE lines through a fresh frame parser and route every
emitted event into the aggregator, as the watcher does while listening. -/
def feedLines (missionId : String) (s : StreamStats) (lines : List String) : StreamStats :=
  ((processLines ⟨none, []⟩ lines).2).foldl
    (fun acc ev => on_event missionId ev.1 ev.2 acc) s

/-- Snapshot ordering: every counter grows, every set only gains
members. -/
def statsLe (a b : StreamStats) : Prop :=
  a.thinking_chunks ≤ b.thinking_chunks ∧
  a.text_deltas ≤ b.text_deltas ∧
  a.assistant_messages ≤ b.assistant_messages ∧
  a.tool_calls ≤ b.tool_calls ∧
  a.tool_results ≤ b.tool_results ∧
  a.assistant_models ⊆ b.assistant_models ∧
  a.tool_call_ids ⊆ b.tool_call_ids ∧
  a.tool_result_ids ⊆ b.tool_result_ids

end MissionStream

namespace Browser

/-- `REQUIRED_TOOL_PREFIXES` of `mission_browser_smoke.py`. -/
def REQUIRED_TOOL_PREFIXES : List String :=
  ["desktop_", "playwright_", "browser_", "mcp__desktop__", "mcp__playwright__"]

/-- `StreamStats` of `mission_browser_smoke.py`. -/
structure StreamStats where
  assistant_messages : Nat := 0
  tool_calls : Nat := 0
  tool_results : Nat := 0
  tool_names : List Json := []
  errors : List String := []

/-- Whether one recorded tool name matches a required prefix (Python's
`name.startswith(tuple)`; non-string names never match). -/
def nameMatches (j : Json) : Bool :=
  match j with
  | Json.str n => REQUIRED_TOOL_PREFIXES.any (fun p => pyStartswith n p)
  | _ => false

/-- `StreamStats.saw_required_tool`. -/
def StreamStats.saw_required_tool (s : StreamStats) : Bool :=
  s.tool_names.any nameMatches

/-- `StreamStats.ok`: the browser tool-prefix completion policy. -/
def StreamStats.ok (s : StreamStats) : Bool :=
  decide (1 ≤ s.assistant_messages) && decide (1 ≤ s.tool_calls) &&
    decide (1 ≤ s.tool_results) && s.saw_required_tool

/-- Snapshot ordering for the browser aggregator. -/
def statsLe (a b : StreamStats) : Prop :=
  a.assistant_messages ≤ b.assistant_messages ∧
  a.tool_calls ≤ b.tool_calls ∧
  a.tool_results ≤ b.tool_results ∧
  a.tool_names ⊆ b.tool_names

end Browser

namespace Proxy

/-- `StreamStats` of `proxy_smoke.py`. -/
structure StreamStats where
  chunks : Nat := 0
  content_deltas : List Json := []
  finish_reason : Option Json := none
  model : Option Json := none
  usage : Option Json := none
  errors : List String := []

/-- `StreamStats.ok`: the chat-completion policy. -/
def StreamStats.ok (s : StreamStats) : Bool :=
  if s.chunks < 1 then false
  else if s.content_deltas.isEmpty then false
  else if s.finish_reason.isNone then false
  else true

/-- Assigning a decoded value to an `Optional` Python attribute: JSON
null becomes `None`. -/
def pyOptOfJson : Json → Option Json
  | Json.null => none
  | v => some v

/-- Left fold over a JSON array's elements. -/
def JsonList.foldl {α : Type} (f : α → Json → α) : α → JsonList → α
  | a, JsonList.nil => a
  | a, JsonList.cons x xs => JsonList.foldl f (f a x) xs

/-- Body of the `for choice in choices` loop of `on_sse_event`: record a
truthy `delta.content` and a truthy `finish_reason`. -/
def procChoice (s : StreamStats) (choice : Json) : StreamStats :=
  let delta := (choice.get "delta").getD (Json.obj JsonFields.nil)
  let s1 :=
    if delta.hasKey "content" && ((delta.get "content").getD Json.null).truthy
    then { s with content_deltas := s.content_deltas ++ [(delta.get "content").getD Json.null] }
    else s
  let fin := (choice.get "finish_reason").getD Json.null
  if fin.truthy then { s1 with finish_reason := some fin } else s1

/-- `on_sse_event` of `proxy_smoke.py`: skip the `[DONE]` sentinel, log
and discard undecodable payloads, log and discard error chunks, and
otherwise count the chunk and record model, deltas, finish reason and
usage. -/
def on_sse_event (_event_type raw_data : String) (s : StreamStats) : StreamStats :=
  if raw_data == "[DONE]" then s
  else match jsonLoads raw_data with
  | none => { s with errors := s.errors ++ ["Invalid JSON: " ++ pyTake raw_data 100] }
  | some payload =>
    if ((payload.get "error").getD Json.null).truthy then
      { s with errors :=
          s.errors ++ ["API error: " ++ Json.render ((payload.get "error").getD Json.null)] }
    else
      let s1 := { s with chunks := s.chunks + 1 }
      let s2 :=
        if payload.hasKey "model" && s1.model.isNone
        then { s1 with model := pyOptOfJson ((payload.get "model").getD Json.null) }
        else s1
      let s3 :=
        match (payload.get "choices").getD (Json.arr JsonList.nil) with
        | Json.arr cs => JsonList.foldl procChoice s2 cs
        | _ => s2
      let u := (payload.get "usage").getD Json.null
      if u.truthy then { s3 with usage := some u } else s3

/-- Snapshot ordering for the proxy aggregator. -/
def statsLe (a b : StreamStats) : Prop :=
  a.chunks ≤ b.chunks ∧
  a.content_deltas ⊆ b.content_deltas ∧
  (a.finish_reason.isSome = true → b.finish_reason.isSome = true) ∧
  (a.model.isSome = true → b.model.isSome = true) ∧
  (a.usage.isSome = true → b.usage.isSome = true)

end Proxy

/-! ## Watcher reconnect loop

Abstract-time model of `StreamWatcher.run`: while the stop signal is
unset and the deadline has not passed, open the stream (always with the
fixed connect timeout); a failed attempt appends its message to the
error log and sleeps one time unit before retrying; a successful
connection is consumed for its duration (at least one time unit).
`fuel` is a recursion bound; any `fuel` covering the remaining time is
enough for the loop to end only by stop signal or deadline. -/

/-- Outcome of one connection attempt. -/
inductive ConnOutcome where
  | fail (msg : String)
  | ok (dur : Nat)

/-- The fixed timeout passed to `open_sse_stream` (and to `parse_sse`)
by `StreamWatcher.run`. -/
def streamOpenTimeout : Nat := 5

/-- The fixed timeout passed to `urllib.request.urlopen` by `http_json`. -/
def httpRequestTimeout : Nat := 30

/-- One watcher run: returns the error log, the list of
`(open time, timeout used)` connection records, and the stop time. -/
def runLoop (stop : Nat → Bool) (conn : Nat → ConnOutcome) (deadline : Nat) :
    Nat → Nat → List String → List (Nat × Nat) → List String × List (Nat × Nat) × Nat
  | 0, t, errs, opens => (errs, opens, t)
  | Nat.succ fuel, t, errs, opens =>
    if stop t || decide (deadline ≤ t) then (errs, opens, t)
    else
      match conn t with
      | ConnOutcome.fail msg =>
          runLoop stop conn deadline fuel (t + 1) (errs ++ [msg])
            (opens ++ [(t, streamOpenTimeout)])
      | ConnOutcome.ok dur =>
          runLoop stop conn deadline fuel (t + dur + 1) errs
            (opens ++ [(t, streamOpenTimeout)])

/-! ## Helper lemmas -/

theorem pyStartswith_head (s p : String) (c : Char) (cs : List Char)
    (hp : p.data = c :: cs) (h : pyStartswith s p = true) : s.data.head? = some c := by
  unfold pyStartswith at h
  rw [hp] at h
  cases hs : s.data with
  | nil => rw [hs] at h; simp [List.isPrefixOf] at h
  | cons d t =>
      rw [hs] at h
      simp only [List.isPrefixOf, Bool.and_eq_true, beq_iff_eq] at h
      simp [h.1]

theorem pyStartswith_false_of_head (s p : String) (c d : Char) (cs : List Char)
    (hp : p.data = c :: cs) (hs : s.data.head? = some d) (hne : (c == d) = false) :
    pyStartswith s p = false := by
  unfold pyStartswith
  rw [hp]
  cases ht : s.data with
  | nil => simp [ht] at hs
  | cons d0 t =>
      rw [ht] at hs
      simp only [List.head?, Option.some.injEq] at hs
      subst hs
      simp [List.isPrefixOf, hne]

theorem ne_empty_of_head (s : String) (c : Char) (hs : s.data.head? = some c) : s ≠ "" := by
  intro he
  subst he
  simp at hs

theorem event_line_shape (l : String) (h : pyStartswith l "event:" = true) :
    l ≠ "" ∧ pyStartswith l ":" = false := by
  have hh := pyStartswith_head l "event:" 'e' ['v', 'e', 'n', 't', ':'] rfl h
  exact ⟨ne_empty_of_head l 'e' hh,
    pyStartswith_false_of_head l ":" ':' 'e' [] rfl hh (by decide)⟩

theorem data_line_shape (l : String) (h : pyStartswith l "data:" = true) :
    l ≠ "" ∧ pyStartswith l ":" = false ∧ pyStartswith l "event:" = false := by
  have hh := pyStartswith_head l "data:" 'd' ['a', 't', 'a', ':'] rfl h
  exact ⟨ne_empty_of_head l 'd' hh,
    pyStartswith_false_of_head l ":" ':' 'd' [] rfl hh (by decide),
    pyStartswith_false_of_head l "event:" 'e' 'd' ['v', 'e', 'n', 't', ':'] rfl hh (by decide)⟩

theorem parseLine_comment (st : ParserState) (l : String)
    (h : pyStartswith l ":" = true) : parseLine st l = (st, []) := by
  simp [parseLine, h]

theorem parseLine_event (st : ParserState) (l : String)
    (h : pyStartswith l "event:" = true) :
    parseLine st l = ({ st with event_type := some (pyStrip (pyDrop l 6)) }, []) := by
  obtain ⟨hne, hcol⟩ := event_line_shape l h
  simp [parseLine, h, hcol, beq_eq_false_iff_ne.mpr hne]

theorem parseLine_data (st : ParserState) (l : String)
    (h : pyStartswith l "data:" = true) :
    parseLine st l = ({ st with data_lines := st.data_lines ++ [pyStrip (pyDrop l 5)] }, []) := by
  obtain ⟨hne, hcol, hev⟩ := data_line_shape l h
  simp [parseLine, h, hcol, hev, beq_eq_false_iff_ne.mpr hne]

theorem parseLine_blank (st : ParserState) :
    parseLine st "" = (⟨none, []⟩,
      if labelTruthy st.event_type && !st.data_lines.isEmpty
      then [(st.event_type.getD "", joinNL st.data_lines)]
      else []) := by
  have hcol : pyStartswith "" ":" = false := by decide
  simp [parseLine, hcol]

theorem parseLine_other (st : ParserState) (l : String) (h0 : l ≠ "")
    (h1 : pyStartswith l ":" = false) (h2 : pyStartswith l "event:" = false)
    (h3 : pyStartswith l "data:" = false) : parseLine st l = (st, []) := by
  simp [parseLine, h1, h2, h3, beq_eq_false_iff_ne.mpr h0]

/-- Characterization of the streaming-shape policy, shared by the C1 and
C4 theorems. -/
theorem has_required_events_iff (s : MissionStream.StreamStats) (rt : Bool) :
    s.has_required_events rt = true ↔
      (2 ≤ s.assistant_messages ∧ 1 ≤ s.text_deltas ∧
       (rt = true → 1 ≤ s.thinking_chunks) ∧
       1 ≤ s.tool_calls ∧ 1 ≤ s.tool_results ∧
       pySetInter s.tool_call_ids s.tool_result_ids ≠ []) := by
  unfold MissionStream.StreamStats.has_required_events
  split_ifs with h1 h2 h3 h4 h5
  · simp only [Bool.false_eq_true, false_iff]
    rintro ⟨ha, -⟩; omega
  · simp only [Bool.false_eq_true, false_iff]
    rintro ⟨-, hb, -⟩; omega
  · simp only [Bool.and_eq_true, decide_eq_true_eq] at h3
    simp only [Bool.false_eq_true, false_iff]
    rintro ⟨-, -, hc, -⟩
    have := hc h3.1
    omega
  · simp only [Bool.false_eq_true, false_iff]
    rintro ⟨-, -, -, hd, he, -⟩
    rcases h4 with h | h <;> omega
  · simp only [List.isEmpty_iff] at h5
    simp only [Bool.false_eq_true, false_iff]
    rintro ⟨-, -, -, -, -, hf⟩
    exact hf h5
  · simp only [true_iff]
    simp only [Bool.and_eq_true, decide_eq_true_eq, not_and] at h3
    simp only [List.isEmpty_iff] at h5
    push_neg at h1 h2 h4
    refine ⟨h1, h2, ?_, h4.1, h4.2, h5⟩
    intro hrt
    have := h3 hrt
    omega

/-! ## Claim theorems -/

/-- C1: the streaming-shape completion policy
(`StreamStats.has_required_events` in `mission_stream_smoke.py`) returns
true exactly when: assistant-message count is at least 2, text-delta
count at least 1, thinking-chunk count at least 1 whenever thinking is
required (skipped when `require_thinking` is false), tool-call and
tool-result counts each at least 1, and the intersection of the
tool-call-id and tool-result-id sets is non-empty. -/
theorem claim_c1_streaming_policy (s : MissionStream.StreamStats) (rt : Bool) :
    s.has_required_events rt = true ↔
      (2 ≤ s.assistant_messages ∧ 1 ≤ s.text_deltas ∧
       (rt = true → 1 ≤ s.thinking_chunks) ∧
       1 ≤ s.tool_calls ∧ 1 ≤ s.tool_results ∧
       pySetInter s.tool_call_ids s.tool_result_ids ≠ []) :=
  has_required_events_iff s rt

/-- Witness for C1 at a concrete satisfying snapshot. -/
theorem claim_c1_streaming_policy_witness :
    MissionStream.StreamStats.has_required_events
      { thinking_chunks := 1, text_deltas := 1, assistant_messages := 2,
        tool_calls := 1, tool_results := 1,
        tool_call_ids := [Json.str "a"], tool_result_ids := [Json.str "a"] } true = true :=
  (claim_c1_streaming_policy
    { thinking_chunks := 1, text_deltas := 1, assistant_messages := 2,
      tool_calls := 1, tool_results := 1,
      tool_call_ids := [Json.str "a"], tool_result_ids := [Json.str "a"] } true).mpr
    ⟨by decide, by decide, fun _ => by decide, by decide, by decide,
      fun h => List.noConfusion h⟩

/-- C2: per-line behaviour of the incremental SSE parser: a comment line
(leading colon) changes no state; an `event:` line sets the pending
label to the trimmed remainder; a `data:` line appends the trimmed
remainder to the pending payload lines; an empty line emits exactly one
event — with payload the pending lines joined by newline — if and only
if a pending (non-empty, in Python-truthiness sense) event label exists
and at least one payload line has accumulated, and in every case resets
both pending fields; any other line is ignored.  In particular no event
is ever emitted without both a label and at least one payload line. -/
theorem claim_c2_parse_step :
    (∀ (st : ParserState) (l : String), pyStartswith l ":" = true →
      parseLine st l = (st, [])) ∧
    (∀ (st : ParserState) (l : String), pyStartswith l "event:" = true →
      parseLine st l = ({ st with event_type := some (pyStrip (pyDrop l 6)) }, [])) ∧
    (∀ (st : ParserState) (l : String), pyStartswith l "data:" = true →
      parseLine st l = ({ st with data_lines := st.data_lines ++ [pyStrip (pyDrop l 5)] }, [])) ∧
    (∀ st : ParserState,
      (parseLine st "").1 = ⟨none, []⟩ ∧
      ((parseLine st "").2 ≠ [] ↔ labelTruthy st.event_type = true ∧ st.data_lines ≠ []) ∧
      (labelTruthy st.event_type = true → st.data_lines ≠ [] →
        (parseLine st "").2 = [(st.event_type.getD "", joinNL st.data_lines)]) ∧
      (parseLine st "").2.length ≤ 1) ∧
    (∀ (st : ParserState) (l : String), l ≠ "" → pyStartswith l ":" = false →
      pyStartswith l "event:" = false → pyStartswith l "data:" = false →
      parseLine st l = (st, [])) := by
  refine ⟨parseLine_comment, parseLine_event, parseLine_data, ?_, parseLine_other⟩
  intro st
  rw [parseLine_blank st]
  refine ⟨rfl, ?_, ?_, ?_⟩
  · constructor
    · intro h
      by_cases hl : labelTruthy st.event_type = true
      · refine ⟨hl, ?_⟩
        intro hd
        simp [hl, hd] at h
      · simp [Bool.eq_false_iff.mpr hl] at h
    · rintro ⟨hl, hd⟩
      simp [hl, List.isEmpty_iff, hd]
  · intro hl hd
    simp [hl, List.isEmpty_iff, hd]
  · split_ifs <;> simp

/-- Witness for C2 on a concrete comment line and state. -/
theorem claim_c2_parse_step_witness :
    parseLine ⟨some "e", ["x"]⟩ ": keep-alive" = (⟨some "e", ["x"]⟩, []) :=
  claim_c2_parse_step.1 ⟨some "e", ["x"]⟩ ": keep-alive" (by decide)

theorem processLines_filter_comments (st : ParserState) (ls : List String) :
    processLines st (ls.filter (fun l => !(pyStartswith l ":"))) = processLines st ls := by
  induction ls generalizing st with
  | nil => rfl
  | cons l rest ih =>
      by_cases h : pyStartswith l ":" = true
      · rw [show processLines st (l :: rest) = processLines st rest by
          simp [processLines, parseLine_comment st l h]]
        simp only [List.filter, h, Bool.not_true]
        exact ih st
      · have hb : pyStartswith l ":" = false := Bool.eq_false_iff.mpr h
        simp only [List.filter, hb, Bool.not_false]
        simp only [processLines]
        rw [ih]

/-- C5: emitted events depend only on the non-comment lines: inserting
comment lines (leading colon) anywhere — including between two `data:`
lines of one block — changes neither the emitted event sequence nor the
final parser state. -/
theorem claim_c5_comment_invariance (ls1 ls2 : List String) (st : ParserState)
    (h : ls1.filter (fun l => !(pyStartswith l ":")) =
         ls2.filter (fun l => !(pyStartswith l ":"))) :
    processLines st ls1 = processLines st ls2 := by
  rw [← processLines_filter_comments st ls1, h, processLines_filter_comments]

/-- Witness for C5: a comment between two data lines of one block does
not reset accumulation. -/
theorem claim_c5_comment_invariance_witness :
    processLines ⟨none, []⟩ ["event: e", "data: a", ": note", "data: b", ""] =
      processLines ⟨none, []⟩ ["event: e", "data: a", "data: b", ""] :=
  claim_c5_comment_invariance ["event: e", "data: a", ": note", "data: b", ""]
    ["event: e", "data: a", "data: b", ""] ⟨none, []⟩ (by decide)

theorem processLines_append (st : ParserState) (l1 l2 : List String) :
    processLines st (l1 ++ l2) =
      ((processLines (processLines st l1).1 l2).1,
       (processLines st l1).2 ++ (processLines (processLines st l1).1 l2).2) := by
  induction l1 generalizing st with
  | nil => simp [processLines]
  | cons l rest ih =>
      simp only [List.cons_append, processLines, List.append_eq, ih, List.append_assoc]

theorem processLines_data_block (t : Option String) (acc : List String) (ds : List String)
    (h : ∀ l ∈ ds, pyStartswith l "data:" = true) :
    processLines ⟨t, acc⟩ ds =
      (⟨t, acc ++ ds.map (fun l => pyStrip (pyDrop l 5))⟩, []) := by
  induction ds generalizing acc with
  | nil => simp [processLines]
  | cons l rest ih =>
      have hl := h l (by simp)
      simp only [processLines, parseLine_data ⟨t, acc⟩ l hl]
      rw [ih (acc ++ [pyStrip (pyDrop l 5)]) (fun x hx => h x (by simp [hx]))]
      simp

/-- C10: within one blank-line-delimited block holding exactly one
`event:` line and one or more `data:` lines, the emitted event is the
same wherever the `event:` line sits among the `data:` lines, and its
payload is the trimmed data remainders joined by newline in arrival
order. -/
theorem claim_c10_event_position (d1 d2 : List String) (e : String)
    (hd : ∀ l ∈ d1 ++ d2, pyStartswith l "data:" = true)
    (he : pyStartswith e "event:" = true)
    (hne : pyStrip (pyDrop e 6) ≠ "")
    (hnonempty : d1 ++ d2 ≠ []) :
    (processLines ⟨none, []⟩ (d1 ++ [e] ++ d2 ++ [""])).2 =
      [(pyStrip (pyDrop e 6),
        joinNL ((d1 ++ d2).map (fun l => pyStrip (pyDrop l 5))))] := by
  have hd1 : ∀ l ∈ d1, pyStartswith l "data:" = true :=
    fun l hl => hd l (by simp [hl])
  have hd2 : ∀ l ∈ d2, pyStartswith l "data:" = true :=
    fun l hl => hd l (by simp [hl])
  have step1 := processLines_data_block none [] d1 hd1
  have step2 : processLines (⟨none, []⟩ : ParserState) (d1 ++ [e]) =
      (⟨some (pyStrip (pyDrop e 6)), d1.map (fun l => pyStrip (pyDrop l 5))⟩, []) := by
    rw [processLines_append, step1]
    simp [processLines, parseLine_event _ e he]
  have step3 : processLines (⟨none, []⟩ : ParserState) (d1 ++ [e] ++ d2) =
      (⟨some (pyStrip (pyDrop e 6)),
        d1.map (fun l => pyStrip (pyDrop l 5)) ++ d2.map (fun l => pyStrip (pyDrop l 5))⟩, []) := by
    rw [processLines_append, step2]
    rw [processLines_data_block (some (pyStrip (pyDrop e 6)))
      (d1.map (fun l => pyStrip (pyDrop l 5))) d2 hd2]
    simp
  rw [processLines_append, step3]
  have hlabel : labelTruthy (some (pyStrip (pyDrop e 6))) = true := by
    simp [labelTruthy, hne]
  have hdatane : d1.map (fun l => pyStrip (pyDrop l 5)) ++
      d2.map (fun l => pyStrip (pyDrop l 5)) ≠ [] := by
    rw [← List.map_append]
    intro hcontra
    exact hnonempty (List.map_eq_nil_iff.mp hcontra)
  simp only [processLines, parseLine_blank]
  simp [hlabel, List.isEmpty_iff, hdatane, List.map_append]

/-- Witness for C10 with the event line between two data lines. -/
theorem claim_c10_event_position_witness :
    (processLines ⟨none, []⟩ (["data: a"] ++ ["event: t"] ++ ["data: b"] ++ [""])).2 =
      [(pyStrip (pyDrop "event: t" 6),
        joinNL ((["data: a"] ++ ["data: b"]).map (fun l => pyStrip (pyDrop l 5))))] :=
  claim_c10_event_position ["data: a"] ["data: b"] "event: t"
    (by decide) (by decide) (by decide) (by decide)

/-! ## Scenario A (claim C3) -/

/-- The raw SSE lines of end-to-end scenario A. -/
def scenarioALines : List String :=
  ["event: tool_call", "data: \x7b\"tool_call_id\":\"x1\"\x7d", "",
   "event: tool_result", "data: \x7b\"tool_call_id\":\"x1\"\x7d", ""]

/-- C3 counterexample: routing scenario A into an aggregator that
already has one assistant message (and nothing else) does produce
tool-call count 1, tool-result count 1 and id-set intersection
`{"x1"}`, but the streaming-shape policy with the thinking requirement
disabled still returns false, because it demands at least two assistant
messages and at least one text delta. -/
theorem claim_c3_counterexample :
    (MissionStream.feedLines "m" { assistant_messages := 1 } scenarioALines).tool_calls = 1 ∧
    (MissionStream.feedLines "m" { assistant_messages := 1 } scenarioALines).tool_results = 1 ∧
    pySetInter
      (MissionStream.feedLines "m" { assistant_messages := 1 } scenarioALines).tool_call_ids
      (MissionStream.feedLines "m" { assistant_messages := 1 } scenarioALines).tool_result_ids =
      [Json.str "x1"] ∧
    1 ≤ (MissionStream.feedLines "m" { assistant_messages := 1 } scenarioALines).assistant_messages ∧
    (MissionStream.feedLines "m" { assistant_messages := 1 } scenarioALines).has_required_events
      false = false :=
  ⟨rfl, rfl, rfl, by decide, rfl⟩

/-- C3 amended: feeding scenario A through the parser into a fresh-set
aggregator yields tool-call count 1, tool-result count 1 and id-set
intersection `{"x1"}`; the streaming-shape policy with the thinking
requirement disabled returns true on the resulting state provided the
aggregator already holds at least two assistant messages and at least
one text delta (one assistant message is not enough). -/
theorem claim_c3_amended :
    (MissionStream.feedLines "m" { assistant_messages := 2, text_deltas := 1 }
      scenarioALines).tool_calls = 1 ∧
    (MissionStream.feedLines "m" { assistant_messages := 2, text_deltas := 1 }
      scenarioALines).tool_results = 1 ∧
    pySetInter
      (MissionStream.feedLines "m" { assistant_messages := 2, text_deltas := 1 }
        scenarioALines).tool_call_ids
      (MissionStream.feedLines "m" { assistant_messages := 2, text_deltas := 1 }
        scenarioALines).tool_result_ids = [Json.str "x1"] ∧
    (MissionStream.feedLines "m" { assistant_messages := 2, text_deltas := 1 }
      scenarioALines).has_required_events false = true :=
  ⟨rfl, rfl, rfl, rfl⟩

/-! ## Claim C4: policies on empty snapshots, and monotonicity -/

theorem pySetInter_ne_nil_mono (a a2 b b2 : List Json) (ha : a ⊆ a2) (hb : b ⊆ b2)
    (h : pySetInter a b ≠ []) : pySetInter a2 b2 ≠ [] := by
  unfold pySetInter at h ⊢
  rw [Ne, List.filter_eq_nil_iff] at h ⊢
  push_neg at h ⊢
  obtain ⟨x, hx, hpx⟩ := h
  refine ⟨x, ha hx, ?_⟩
  rw [List.any_eq_true] at hpx ⊢
  obtain ⟨y, hy, he⟩ := hpx
  exact ⟨y, hb hy, he⟩

theorem browser_ok_iff (s : Browser.StreamStats) :
    s.ok = true ↔
      1 ≤ s.assistant_messages ∧ 1 ≤ s.tool_calls ∧ 1 ≤ s.tool_results ∧
      s.saw_required_tool = true := by
  unfold Browser.StreamStats.ok
  simp [Bool.and_eq_true, and_assoc]

theorem saw_required_tool_mono (a b : Browser.StreamStats)
    (h : a.tool_names ⊆ b.tool_names) (ha : a.saw_required_tool = true) :
    b.saw_required_tool = true := by
  unfold Browser.StreamStats.saw_required_tool at ha ⊢
  rw [List.any_eq_true] at ha ⊢
  obtain ⟨x, hx, hpx⟩ := ha
  exact ⟨x, h hx, hpx⟩

theorem proxy_ok_iff (s : Proxy.StreamStats) :
    s.ok = true ↔
      1 ≤ s.chunks ∧ s.content_deltas ≠ [] ∧ s.finish_reason.isSome = true := by
  unfold Proxy.StreamStats.ok
  split_ifs with h1 h2 h3
  · simp only [Bool.false_eq_true, false_iff]
    rintro ⟨ha, -⟩; omega
  · simp only [List.isEmpty_iff] at h2
    simp only [Bool.false_eq_true, false_iff]
    rintro ⟨-, hb, -⟩
    exact hb h2
  · simp only [Bool.false_eq_true, false_iff]
    rintro ⟨-, -, hc⟩
    rw [Option.isNone_iff_eq_none] at h3
    rw [h3] at hc
    simp at hc
  · simp only [true_iff]
    simp only [List.isEmpty_iff] at h2
    refine ⟨by omega, h2, ?_⟩
    cases hf : s.finish_reason with
    | none => rw [Option.isNone_iff_eq_none.mpr hf] at h3; simp at h3
    | some v => rfl

/-- C4: every completion policy — the streaming-shape policy, the
browser tool-prefix policy and the chat-completion policy — is false on
a freshly initialized (all-zero, all-empty) stats snapshot, and each is
monotone with respect to snapshots that only add: counters only grow,
sets only gain members, and optional fields once set stay set. -/
theorem claim_c4_policies :
    (∀ rt : Bool, MissionStream.StreamStats.has_required_events {} rt = false) ∧
    Browser.StreamStats.ok {} = false ∧
    Proxy.StreamStats.ok {} = false ∧
    (∀ (rt : Bool) (a b : MissionStream.StreamStats), MissionStream.statsLe a b →
      a.has_required_events rt = true → b.has_required_events rt = true) ∧
    (∀ a b : Browser.StreamStats, Browser.statsLe a b →
      a.ok = true → b.ok = true) ∧
    (∀ a b : Proxy.StreamStats, Proxy.statsLe a b →
      a.ok = true → b.ok = true) := by
  refine ⟨fun _ => rfl, rfl, rfl, ?_, ?_, ?_⟩
  · intro rt a b hle ha
    rw [has_required_events_iff] at ha ⊢
    obtain ⟨h1, h2, h3, h4, h5, h6⟩ := ha
    obtain ⟨l1, l2, l3, l4, l5, -, l7, l8⟩ := hle
    exact ⟨by omega, by omega, fun hrt => le_trans (h3 hrt) l1, by omega, by omega,
      pySetInter_ne_nil_mono _ _ _ _ l7 l8 h6⟩
  · intro a b hle ha
    rw [browser_ok_iff] at ha ⊢
    obtain ⟨h1, h2, h3, h4⟩ := ha
    obtain ⟨l1, l2, l3, l4⟩ := hle
    exact ⟨by omega, by omega, by omega, saw_required_tool_mono a b l4 h4⟩
  · intro a b hle ha
    rw [proxy_ok_iff] at ha ⊢
    obtain ⟨h1, h2, h3⟩ := ha
    obtain ⟨l1, l2, l3, -, -⟩ := hle
    refine ⟨by omega, ?_, l3 h3⟩
    obtain ⟨x, hx⟩ := List.exists_mem_of_ne_nil _ h2
    exact List.ne_nil_of_mem (l2 hx)

/-- Witness for C4: the streaming-shape monotonicity applied to a
concrete satisfying snapshot (compared with itself). -/
theorem claim_c4_policies_witness :
    MissionStream.StreamStats.has_required_events
      { thinking_chunks := 1, text_deltas := 1, assistant_messages := 2, tool_calls := 1,
        tool_results := 1, tool_call_ids := [Json.str "b"], tool_result_ids := [Json.str "b"] }
      false = true :=
  claim_c4_policies.2.2.2.1 false
    { thinking_chunks := 1, text_deltas := 1, assistant_messages := 2, tool_calls := 1,
      tool_results := 1, tool_call_ids := [Json.str "b"], tool_result_ids := [Json.str "b"] }
    { thinking_chunks := 1, text_deltas := 1, assistant_messages := 2, tool_calls := 1,
      tool_results := 1, tool_call_ids := [Json.str "b"], tool_result_ids := [Json.str "b"] }
    ⟨Nat.le.refl, Nat.le.refl, Nat.le.refl, Nat.le.refl, Nat.le.refl,
     List.Subset.refl _, List.Subset.refl _, List.Subset.refl _⟩ rfl

/-! ## Claim C6: decode failures -/

/-- C6 counterexample: on a payload that fails to decode, the
mission-stream routing handler (`StreamWatcher.on_event` in
`mission_stream_smoke.py`) discards the event without appending any
decode-error entry to the error log — the aggregator is left entirely
unchanged, so the claim's "logs the failure" is false for this handler. -/
theorem claim_c6_decode_counterexample :
    jsonLoads "not json" = none ∧
    MissionStream.on_event "m1" "thinking" "not json" {} = ({} : MissionStream.StreamStats) ∧
    (MissionStream.on_event "m1" "thinking" "not json" {}).errors = [] :=
  ⟨rfl, rfl, rfl⟩

/-- C6 amended: on a payload that fails to decode, the proxy handler
(`on_sse_event` in `proxy_smoke.py`, for payloads other than the
`[DONE]` sentinel) appends an `Invalid JSON:` entry to the error log and
changes nothing else, while the mission-stream handler silently discards
the event with no mutation at all; in both cases processing continues
(the handler returns normally). -/
theorem claim_c6_decode_amended (et raw mid : String) (sp : Proxy.StreamStats)
    (sm : MissionStream.StreamStats)
    (hdec : jsonLoads raw = none) (hdone : raw ≠ "[DONE]") :
    Proxy.on_sse_event et raw sp =
      { sp with errors := sp.errors ++ ["Invalid JSON: " ++ pyTake raw 100] } ∧
    MissionStream.on_event mid et raw sm = sm := by
  constructor
  · simp [Proxy.on_sse_event, hdec, beq_eq_false_iff_ne.mpr hdone]
  · simp [MissionStream.on_event, hdec]

/-- Witness for the amended C6 at a concrete undecodable payload. -/
theorem claim_c6_decode_amended_witness :
    Proxy.on_sse_event "t" "oops" {} =
      { ({} : Proxy.StreamStats) with
          errors := ({} : Proxy.StreamStats).errors ++ ["Invalid JSON: " ++ pyTake "oops" 100] } ∧
    MissionStream.on_event "m" "t" "oops" {} = ({} : MissionStream.StreamStats) :=
  claim_c6_decode_amended "t" "oops" "m" {} {} rfl (by decide)

/-! ## Claim C7: watcher reconnect loop -/

/-- C7: in the watcher loop model, a failed connection attempt while the
stop signal is unset and the deadline has not passed appends the failure
message to the error log, pauses one time unit, and continues with a
fresh attempt (so no connection failure terminates the run); and for any
attempt oracle, whenever the recursion bound covers the remaining time,
the loop only stops because the stop signal is set or the deadline has
been reached. -/
theorem claim_c7_reconnect_loop :
    (∀ (stop : Nat → Bool) (conn : Nat → ConnOutcome) (deadline fuel t : Nat)
       (errs : List String) (opens : List (Nat × Nat)) (msg : String),
       stop t = false → t < deadline → conn t = ConnOutcome.fail msg →
       runLoop stop conn deadline (fuel + 1) t errs opens =
         runLoop stop conn deadline fuel (t + 1) (errs ++ [msg])
           (opens ++ [(t, streamOpenTimeout)])) ∧
    (∀ (stop : Nat → Bool) (conn : Nat → ConnOutcome) (deadline fuel t : Nat)
       (errs : List String) (opens : List (Nat × Nat)), deadline ≤ t + fuel →
       stop (runLoop stop conn deadline fuel t errs opens).2.2 = true ∨
       deadline ≤ (runLoop stop conn deadline fuel t errs opens).2.2) := by
  constructor
  · intro stop conn deadline fuel t errs opens msg h1 h2 h3
    have hd : decide (deadline ≤ t) = false := decide_eq_false (Nat.not_le.mpr h2)
    simp [runLoop, h1, hd, h3]
  · intro stop conn deadline fuel
    induction fuel with
    | zero =>
        intro t errs opens h
        simp only [runLoop]
        omega
    | succ fuel ih =>
        intro t errs opens h
        by_cases hc : (stop t || decide (deadline ≤ t)) = true
        · simp only [runLoop, hc, if_true]
          by_cases hs : stop t = true
          · exact Or.inl hs
          · right
            have hb : decide (deadline ≤ t) = true := by
              cases hstop : stop t with
              | true => exact absurd hstop hs
              | false => rw [hstop] at hc; simpa using hc
            exact of_decide_eq_true hb
        · have hc2 : (stop t || decide (deadline ≤ t)) = false := Bool.eq_false_iff.mpr hc
          simp only [runLoop, hc2, Bool.false_eq_true, if_false]
          cases hconn : conn t with
          | fail msg => exact ih (t + 1) (errs ++ [msg]) (opens ++ [(t, streamOpenTimeout)]) (by omega)
          | ok dur => exact ih (t + dur + 1) errs (opens ++ [(t, streamOpenTimeout)]) (by omega)

/-- Witness for C7: one concrete failing attempt with its retry. -/
theorem claim_c7_reconnect_loop_witness :
    runLoop (fun _ => false) (fun _ => ConnOutcome.fail "boom") 5 (3 + 1) 0 [] [] =
      runLoop (fun _ => false) (fun _ => ConnOutcome.fail "boom") 5 3 (0 + 1)
        ([] ++ ["boom"]) ([] ++ [(0, streamOpenTimeout)]) :=
  claim_c7_reconnect_loop.1 (fun _ => false) (fun _ => ConnOutcome.fail "boom") 5 3 0 [] []
    "boom" rfl (by decide) rfl

/-! ## Claim C8: blocking-call timeouts -/

/-- C8 counterexample: the watcher opens its stream with the fixed
timeout 5 even when only one time unit of budget remains — at time 9
with deadline 10, a connection is opened with timeout 5 while the
remaining budget is 1, so the call's timeout exceeds the remaining
budget and the call may block past the overall deadline. -/
theorem claim_c8_timeout_counterexample :
    (runLoop (fun _ => false) (fun _ => ConnOutcome.fail "connection refused")
      10 1 9 [] []).2.1 = [(9, streamOpenTimeout)] ∧
    10 - 9 < streamOpenTimeout :=
  ⟨rfl, by decide⟩

theorem runLoop_opens_aux (stop : Nat → Bool) (conn : Nat → ConnOutcome) (deadline : Nat) :
    ∀ (fuel t : Nat) (errs : List String) (opens : List (Nat × Nat)) (p : Nat × Nat),
      p ∈ (runLoop stop conn deadline fuel t errs opens).2.1 →
      p ∈ opens ∨ (p.2 = streamOpenTimeout ∧ p.1 < deadline ∧ stop p.1 = false) := by
  intro fuel
  induction fuel with
  | zero =>
      intro t errs opens p hp
      exact Or.inl hp
  | succ fuel ih =>
      intro t errs opens p hp
      by_cases hc : (stop t || decide (deadline ≤ t)) = true
      · rw [show runLoop stop conn deadline (fuel + 1) t errs opens = (errs, opens, t) by
          simp [runLoop, hc]] at hp
        exact Or.inl hp
      · have hc2 : (stop t || decide (deadline ≤ t)) = false := Bool.eq_false_iff.mpr hc
        rw [Bool.or_eq_false_iff] at hc2
        have hstop := hc2.1
        have hlt : t < deadline := Nat.lt_of_not_le (of_decide_eq_false hc2.2)
        simp only [runLoop, hc2.1, hc2.2, Bool.or_self, Bool.false_eq_true, if_false] at hp
        cases hconn : conn t with
        | fail msg =>
            rw [hconn] at hp
            rcases ih (t + 1) (errs ++ [msg]) (opens ++ [(t, streamOpenTimeout)]) p hp with h | h
            · rcases List.mem_append.mp h with h2 | h2
              · exact Or.inl h2
              · right
                rcases List.mem_singleton.mp h2 with rfl
                exact ⟨rfl, hlt, hstop⟩
            · exact Or.inr h
        | ok dur =>
            rw [hconn] at hp
            rcases ih (t + dur + 1) errs (opens ++ [(t, streamOpenTimeout)]) p hp with h | h
            · rcases List.mem_append.mp h with h2 | h2
              · exact Or.inl h2
              · right
                rcases List.mem_singleton.mp h2 with rfl
                exact ⟨rfl, hlt, hstop⟩
            · exact Or.inr h

/-- C8 amended: every stream connection the watcher loop opens uses the
fixed timeout constant 5 (`streamOpenTimeout`), and is opened strictly
before the deadline while the stop signal is unset; the session and
stimulus HTTP requests likewise use the fixed timeout constant 30
(`httpRequestTimeout`).  The timeouts are constants rather than bounds
derived from the remaining budget, so blocking is only bounded by the
deadline plus the fixed timeout. -/
theorem claim_c8_timeout_amended (stop : Nat → Bool) (conn : Nat → ConnOutcome)
    (deadline fuel t : Nat) (errs : List String) (p : Nat × Nat)
    (hp : p ∈ (runLoop stop conn deadline fuel t errs []).2.1) :
    p.2 = streamOpenTimeout ∧ p.1 < deadline ∧ stop p.1 = false ∧
    streamOpenTimeout = 5 ∧ httpRequestTimeout = 30 := by
  rcases runLoop_opens_aux stop conn deadline fuel t errs [] p hp with h | h
  · simp at h
  · exact ⟨h.1, h.2.1, h.2.2, rfl, rfl⟩

/-- Witness for the amended C8 at a concrete run. -/
theorem claim_c8_timeout_amended_witness :
    ((9, streamOpenTimeout) : Nat × Nat).2 = streamOpenTimeout ∧
    ((9, streamOpenTimeout) : Nat × Nat).1 < 10 ∧
    (fun _ : Nat => false) ((9, streamOpenTimeout) : Nat × Nat).1 = false ∧
    streamOpenTimeout = 5 ∧ httpRequestTimeout = 30 :=
  claim_c8_timeout_amended (fun _ => false)
    (fun _ => ConnOutcome.fail "connection refused") 10 1 9 [] (9, streamOpenTimeout)
    (by decide)

/-! ## Claim C9: falsy correlation ids -/

/-- C9: a routed `tool_call` or `tool_result` event whose decoded
payload carries a falsy `tool_call_id` (JSON null or the empty string)
increments the corresponding counter but leaves both id sets — and every
other field — unchanged, so such events can never contribute to the
id-set intersection required by the streaming-shape policy. -/
theorem claim_c9_falsy_ids (missionId : String) (p : Json) (tid : Json)
    (s : MissionStream.StreamStats)
    (hmid : (((p.get "mission_id").getD Json.null).truthy &&
             !(Json.eqb ((p.get "mission_id").getD Json.null) (Json.str missionId))) = false)
    (hid : p.get "tool_call_id" = some tid)
    (hfalsy : tid = Json.null ∨ tid = Json.str "") :
    MissionStream.onEventDecoded missionId "tool_call" p s =
      { s with tool_calls := s.tool_calls + 1 } ∧
    MissionStream.onEventDecoded missionId "tool_result" p s =
      { s with tool_results := s.tool_results + 1 } := by
  have htr : tid.truthy = false := by
    rcases hfalsy with h | h <;> rw [h] <;> rfl
  constructor
  · simp only [MissionStream.onEventDecoded, hmid, hid]
    simp [htr]
  · simp only [MissionStream.onEventDecoded, hmid, hid]
    simp [htr]

/-- Witness for C9 at a concrete payload with an empty-string id. -/
theorem claim_c9_falsy_ids_witness :
    MissionStream.onEventDecoded "m" "tool_call"
      (Json.obj (JsonFields.cons "tool_call_id" (Json.str "") JsonFields.nil)) {} =
      { ({} : MissionStream.StreamStats) with
          tool_calls := ({} : MissionStream.StreamStats).tool_calls + 1 } ∧
    MissionStream.onEventDecoded "m" "tool_result"
      (Json.obj (JsonFields.cons "tool_call_id" (Json.str "") JsonFields.nil)) {} =
      { ({} : MissionStream.StreamStats) with
          tool_results := ({} : MissionStream.StreamStats).tool_results + 1 } :=
  claim_c9_falsy_ids "m"
    (Json.obj (JsonFields.cons "tool_call_id" (Json.str "") JsonFields.nil))
    (Json.str "") {} rfl rfl (Or.inr rfl)
